import Mathlib

/-!
Verification of the agent query bridge of the DBMS-ASSISTANT desktop shell
(`UI/src-tauri/src/commands.rs` and `UI/src-tauri/src/python_bridge.rs`).

The bridge is a Rust Tauri command layer (`run_dba_query`, `clear_conversation`,
`connect_database`, `get_connection_status`) over an embedded Python script
(assembled and executed inside `run_python_query_with_history`).  The script
assembles a context-aware prompt from the conversation history, drives a
streaming agent call, aggregates the streamed text chunks into the final
answer, and writes a forensic log.

The definitions below are a shallow embedding of that code.  External effects
(the agent stream, the environment, the forensic-log sink, wall-clock timing)
are passed in as explicit values/oracles; everything the repository computes
from them is modelled exactly as the source computes it.  String values are
modelled at the value level (the embedding of Python string interpolation is
taken to transport values faithfully).
-/

/-! ## Streaming orchestrator: chunk aggregation

Models the `async for chunk in agent.run_stream(full_prompt)` loop of the
embedded Python `run_query`: a chunk carries an optional text fragment
(`chunk.text`, where Python `None` and `""` are both falsy and are modelled
as `""`) and an optional list of tool-invocation descriptors
(`chunk.tool_calls`). -/

structure StreamChunk where
  text : String
  tool_calls : Option (List String)
deriving DecidableEq

/-- The `result_parts` list built by the loop: `chunk.text` is appended
exactly when `if chunk.text:` is truthy, i.e. nonempty, in arrival order. -/
def result_parts : List StreamChunk → List String
  | [] => []
  | c :: cs => if c.text = "" then result_parts cs else c.text :: result_parts cs

/-- Python `''.join(parts)`: concatenation of the parts in order. -/
def joinParts : List String → String
  | [] => ""
  | p :: ps => p ++ joinParts ps

/-- The `tool_call_count` accumulated by the loop:
`tool_call_count += len(chunk.tool_calls or [])`. -/
def tool_call_count (cs : List StreamChunk) : Nat :=
  (cs.map (fun c => (c.tool_calls.getD []).length)).sum

/-- The final answer of the embedded `run_query` on a completed stream:
`''.join(result_parts) if result_parts else "No response from agent"`. -/
def aggregate (cs : List StreamChunk) : String :=
  if result_parts cs = [] then "No response from agent" else joinParts (result_parts cs)

/-! ## Streaming orchestrator: outcome of one embedded run

`run_query` either consumes a complete stream of chunks, or an exception is
raised during session setup / streaming (steps 1-4); the `except Exception`
clause converts the latter into the string
`f"Error: {str(e)}\n\nTraceback:\n{traceback.format_exc()}"`. -/

inductive StreamOutcome where
  | chunks : List StreamChunk → StreamOutcome
  | raise : String → String → StreamOutcome
deriving DecidableEq

/-- The string returned by the embedded Python `run_query` coroutine. -/
def run_query : StreamOutcome → String
  | .chunks cs => aggregate cs
  | .raise msg tb => "Error: " ++ msg ++ "\n\nTraceback:\n" ++ tb

/-- Outcome of `py.run_bound` on the generated script: either the script ran
to completion (its embedded try/except guarantees `run_query` resolves to a
string), or a Python error escaped the script itself (e.g. a failing
top-level module load, which sits outside the embedded `try`), surfacing
as the `Err` of `PyResult`. -/
inductive BridgeOutcome where
  | ok : StreamOutcome → BridgeOutcome
  | pyerr : String → BridgeOutcome
deriving DecidableEq

/-- `python_bridge::run_python_query_with_history` as seen by its caller:
`Ok(result)` with the script's `result` variable, or `Err` when the Python
run itself failed.  The query and history parameters shape the prompt (see
`full_prompt` below) but the agent's behaviour is the external oracle. -/
def run_python_query_with_history (_query : String) (_history : List (String × String)) :
    BridgeOutcome → Except String String
  | .ok o => .ok (run_query o)
  | .pyerr e => .error e

/-! ## Bridge facade: shared state and Tauri commands (`commands.rs`) -/

/-- `AppState`: in the source each field sits behind its own `Mutex`; the
pure model carries the field values. -/
structure AppState where
  is_connected : Bool
  server_name : Option String
  database_name : Option String
  conversation_history : List (String × String)
deriving DecidableEq

structure ConnectionInfo where
  server : String
  database : String
  username : Option String
deriving DecidableEq

structure QueryResult where
  success : Bool
  message : String
  data : Option String
  execution_time_ms : Nat
deriving DecidableEq

structure ConnectionStatus where
  is_connected : Bool
  server : Option String
  database : Option String
deriving DecidableEq

/-- `run_dba_query`: snapshots the history, calls the Python bridge, and on
`Ok(response)` appends `(query, response)` to the history and returns a
`QueryResult` with `success: true`; on `Err` returns the formatted error
without touching the state.  The bridge outcome and the elapsed time are
external inputs. -/
def run_dba_query (query : String) (st : AppState) (b : BridgeOutcome) (elapsed : Nat) :
    Except String QueryResult × AppState :=
  match run_python_query_with_history query st.conversation_history b with
  | .error e => (.error ("Python error: " ++ e), st)
  | .ok result =>
      (.ok { success := true, message := "Query executed successfully",
             data := some result, execution_time_ms := elapsed },
       { st with conversation_history := st.conversation_history ++ [(query, result)] })

/-- `clear_conversation`: empties the history and returns the confirmation. -/
def clear_conversation (st : AppState) : String × AppState :=
  ("Conversation cleared", { st with conversation_history := [] })

/-- `connect_database` takes three separately-locked writes, one mutex at a
time: set `is_connected`, then `server_name`, then `database_name`.  Each
element is one atomic (mutex-guarded) step; a concurrent reader can run
between steps. -/
def connectSteps (server database : String) : List (AppState → AppState) :=
  [fun st => { st with is_connected := true },
   fun st => { st with server_name := some server },
   fun st => { st with database_name := some database }]

/-- State reached after executing a list of atomic steps in order. -/
def stateAfter (st : AppState) (fs : List (AppState → AppState)) : AppState :=
  fs.foldl (fun s f => f s) st

/-- `connect_database` run to completion (all three writes), with its
returned confirmation string. -/
def connect_database (info : ConnectionInfo) (st : AppState) : String × AppState :=
  ("Connected to " ++ info.server ++ "." ++ info.database,
   stateAfter st (connectSteps info.server info.database))

/-- `get_connection_status`: reads the three fields (each under its own
mutex) into a `ConnectionStatus`. -/
def get_connection_status (st : AppState) : ConnectionStatus :=
  { is_connected := st.is_connected,
    server := st.server_name,
    database := st.database_name }

/-! ## Prompt assembler

`history_str` is built in Rust (`format!("User: {}\nAssistant: {}\n", q, r)`
joined with `"\n---\n"`); the embedded Python then tests
`if history.strip():` and either wraps the query in the
`"Previous conversation:"` template or passes the query through verbatim. -/

/-- Python `str.strip()`: remove leading and trailing whitespace. -/
def pyStrip (s : String) : String :=
  ⟨((s.data.dropWhile Char.isWhitespace).reverse.dropWhile Char.isWhitespace).reverse⟩

/-- Python `sep.join(parts)` / Rust `Vec::join`. -/
def pyJoin (sep : String) : List String → String
  | [] => ""
  | [p] => p
  | p :: q :: ps => p ++ sep ++ pyJoin sep (q :: ps)

/-- One history turn rendered by the Rust side:
`format!("User: {}\nAssistant: {}\n", q, r)`. -/
def turnBlock (t : String × String) : String :=
  "User: " ++ t.1 ++ "\nAssistant: " ++ t.2 ++ "\n"

/-- The Rust `history_str`: turn blocks joined with `"\n---\n"`. -/
def history_str (h : List (String × String)) : String :=
  pyJoin "\n---\n" (h.map turnBlock)

/-- The embedded Python `full_prompt`: the raw query when
`history.strip()` is falsy, else the fixed context template. -/
def full_prompt (h : List (String × String)) (query : String) : String :=
  if pyStrip (history_str h) = "" then query
  else
    "Previous conversation:\n" ++ history_str h ++ "\n\n---\nCurrent question: " ++ query
      ++ "\n\nPlease answer based on the context from our previous conversation."

/-- `needle` occurs contiguously inside `hay`. -/
def strContains (hay needle : String) : Prop :=
  ∃ pre post : String, hay = pre ++ needle ++ post

/-! ## Tool-server environment configuration

`os.getenv(key, default)` lookups feeding `mcp_env` in the embedded script. -/

/-- Python `os.getenv(key, dflt)` over an environment oracle. -/
def pyGetenv (env : String → Option String) (key dflt : String) : String :=
  (env key).getD dflt

/-- The `mcp_env` dictionary handed to `MCPStdioTool`, including the
`server` / `database` values computed just above it. -/
def mcp_env (env : String → Option String) : List (String × String) :=
  [("SERVER_NAME", pyGetenv env "SERVER_NAME" "localhost"),
   ("DATABASE_NAME", pyGetenv env "DATABASE_NAME" "master"),
   ("SQL_USERNAME", pyGetenv env "SQL_USERNAME" ""),
   ("SQL_PASSWORD", pyGetenv env "SQL_PASSWORD" ""),
   ("TRUST_SERVER_CERTIFICATE", pyGetenv env "TRUST_SERVER_CERTIFICATE" "true"),
   ("READONLY", pyGetenv env "READONLY" "false")]

/-! ## Forensic-log sink model

Inside the embedded `try`, the script performs a sequence of
`with open(forensic_log, 'a') as log:` blocks: one before the stream, one
per chunk (plus a second one for chunks with nonempty text), and one after
the stream.  An `open` that fails raises `OSError`, which the enclosing
`except Exception` turns into the `"Error: ..."` answer.  The sink oracle
maps the index of each `open` call to `none` (success) or
`some (str(e), traceback)` (failure).  The post-run result-logging block is
wrapped in its own `try: ... except Exception: pass` and therefore never
affects the result; the Rust-side writes are guarded by
`if let Ok(...)` / `let _ =` and likewise never affect it. -/

/-- The streaming loop threading the sink-open index: for each chunk, one
raw-chunk log open; for a chunk with nonempty text, the text is appended to
`result_parts` and one more text-chunk log open follows. -/
def streamLoop (sink : Nat → Option (String × String)) :
    List StreamChunk → Nat → List String → Except (String × String) (List String × Nat)
  | [], idx, acc => .ok (acc, idx)
  | c :: cs, idx, acc =>
      match sink idx with
      | some e => .error e
      | none =>
          if c.text = "" then
            streamLoop sink cs (idx + 1) acc
          else
            match sink (idx + 1) with
            | some e => .error e
            | none => streamLoop sink cs (idx + 2) (acc ++ [c.text])

/-- The embedded `run_query` with the forensic sink made explicit: the
pre-stream open, the streaming loop, and the post-stream open all run inside
the `try`; any sink failure is caught by the `except` clause and rendered as
the `"Error: ..."` answer. -/
def run_query_sink (sink : Nat → Option (String × String)) (cs : List StreamChunk) : String :=
  match sink 0 with
  | some e => "Error: " ++ e.1 ++ "\n\nTraceback:\n" ++ e.2
  | none =>
      match streamLoop sink cs 1 [] with
      | .error e => "Error: " ++ e.1 ++ "\n\nTraceback:\n" ++ e.2
      | .ok (parts, idx) =>
          match sink idx with
          | some e => "Error: " ++ e.1 ++ "\n\nTraceback:\n" ++ e.2
          | none => if parts = [] then "No response from agent" else joinParts parts

/-- UTF-8 byte length of a string (Rust `String::len`). -/
def utf8Len (s : String) : Nat :=
  (s.data.map Char.utf8Size).sum

/-- Whether byte index `i` is a character boundary of the character list
(Rust `str::is_char_boundary` for an in-range index). -/
def isCharBoundary : List Char → Nat → Bool
  | _, 0 => true
  | [], _ + 1 => false
  | c :: cs, i + 1 =>
      if c.utf8Size ≤ i + 1 then isCharBoundary cs (i + 1 - c.utf8Size) else false

/-- The Rust result-preview logging (`&result[..200]` and
`&result[result.len()-200..]` when `result.len() > 200`): `true` exactly
when one of the two byte slices would panic because its index is not a
character boundary. -/
def rust_preview_faults (result : String) : Bool :=
  if utf8Len result > 200 then
    !(isCharBoundary result.data 200) || !(isCharBoundary result.data (utf8Len result - 200))
  else false

/-! ## Helper lemmas -/

theorem strData_append (a b : String) : (a ++ b).data = a.data ++ b.data := rfl

theorem strEmpty_append (s : String) : "" ++ s = s := rfl

theorem strAppend_empty (s : String) : s ++ "" = s := by
  cases s with
  | mk l =>
      show String.mk (l ++ []) = String.mk l
      rw [List.append_nil]

theorem strAppend_assoc (a b c : String) : a ++ b ++ c = a ++ (b ++ c) := by
  cases a with
  | mk l1 =>
      cases b with
      | mk l2 =>
          cases c with
          | mk l3 =>
              show String.mk (l1 ++ l2 ++ l3) = String.mk (l1 ++ (l2 ++ l3))
              rw [List.append_assoc]

theorem joinParts_result_parts (cs : List StreamChunk) :
    joinParts (result_parts cs) = joinParts (cs.map (fun c => c.text)) := by
  induction cs with
  | nil => rfl
  | cons c cs ih =>
      by_cases h : c.text = ""
      · simp [result_parts, h, joinParts, ih, strEmpty_append]
      · simp [result_parts, h, joinParts, ih]

theorem result_parts_ne_nil {cs : List StreamChunk} (h : ∃ c ∈ cs, c.text ≠ "") :
    result_parts cs ≠ [] := by
  induction cs with
  | nil =>
      obtain ⟨c, hc, _⟩ := h
      cases hc
  | cons c cs ih =>
      obtain ⟨d, hd, hne⟩ := h
      by_cases h0 : c.text = ""
      · rcases List.mem_cons.mp hd with rfl | hmem
        · exact absurd h0 hne
        · simp only [result_parts, if_pos h0]
          exact ih ⟨d, hmem, hne⟩
      · simp only [result_parts, if_neg h0]
        exact List.cons_ne_nil _ _

theorem result_parts_eq_nil {cs : List StreamChunk} (h : ∀ c ∈ cs, c.text = "") :
    result_parts cs = [] := by
  induction cs with
  | nil => rfl
  | cons c cs ih =>
      simp only [result_parts, if_pos (h c (List.mem_cons_self c cs))]
      exact ih fun x hx => h x (List.mem_cons_of_mem c hx)

theorem pyStrip_eq_empty_ws {s : String} (hs : pyStrip s = "") :
    ∀ c ∈ s.data, c.isWhitespace = true := by
  intro c hc
  have hdata : ((s.data.dropWhile Char.isWhitespace).reverse.dropWhile
      Char.isWhitespace).reverse = [] := congrArg String.data hs
  rw [List.reverse_eq_nil_iff] at hdata
  have hall : ∀ x ∈ (s.data.dropWhile Char.isWhitespace).reverse, x.isWhitespace :=
    List.dropWhile_eq_nil_iff.mp hdata
  have hall2 : ∀ x ∈ s.data.dropWhile Char.isWhitespace, x.isWhitespace := by
    intro x hx
    exact hall x (List.mem_reverse.mpr hx)
  have hc2 : c ∈ s.data.takeWhile Char.isWhitespace ++ s.data.dropWhile Char.isWhitespace := by
    rw [List.takeWhile_append_dropWhile]
    exact hc
  rcases List.mem_append.mp hc2 with h1 | h2
  · exact List.mem_takeWhile_imp h1
  · exact hall2 c h2

theorem pyStrip_ne_empty {s : String} {c : Char} (hc : c ∈ s.data)
    (hw : c.isWhitespace = false) : pyStrip s ≠ "" := by
  intro h
  have := pyStrip_eq_empty_ws h c hc
  rw [hw] at this
  cases this

theorem mem_data_append_left (a b : String) {c : Char} (h : c ∈ a.data) :
    c ∈ (a ++ b).data := by
  rw [strData_append]
  exact List.mem_append_left _ h

theorem mem_data_turnBlock (t : String × String) : 'U' ∈ (turnBlock t).data := by
  unfold turnBlock
  apply mem_data_append_left
  apply mem_data_append_left
  apply mem_data_append_left
  apply mem_data_append_left
  decide

theorem pyStrip_history_str_cons (t : String × String) (ts : List (String × String)) :
    pyStrip (history_str (t :: ts)) ≠ "" := by
  apply pyStrip_ne_empty (c := 'U')
  · unfold history_str
    cases ts with
    | nil =>
        show 'U' ∈ (pyJoin "\n---\n" [turnBlock t]).data
        simpa [pyJoin] using mem_data_turnBlock t
    | cons t2 ts2 =>
        show 'U' ∈ (pyJoin "\n---\n" (turnBlock t :: turnBlock t2 :: ts2.map turnBlock)).data
        simp only [pyJoin]
        exact mem_data_append_left _ _ (mem_data_append_left _ _ (mem_data_turnBlock t))
  · decide

theorem pyJoin_contains (sep : String) :
    ∀ (bs : List String) (b : String), b ∈ bs → strContains (pyJoin sep bs) b
  | [], b, hb => absurd hb (List.not_mem_nil b)
  | [b0], b, hb => by
      rcases List.mem_singleton.mp hb with rfl
      exact ⟨"", "", by rw [strEmpty_append, strAppend_empty]; rfl⟩
  | b0 :: b1 :: bs, b, hb => by
      rcases List.mem_cons.mp hb with rfl | hmem
      · refine ⟨"", sep ++ pyJoin sep (b1 :: bs), ?_⟩
        rw [strEmpty_append]
        show b ++ sep ++ pyJoin sep (b1 :: bs) = b ++ (sep ++ pyJoin sep (b1 :: bs))
        rw [strAppend_assoc]
      · obtain ⟨p, s, hp⟩ := pyJoin_contains sep (b1 :: bs) b hmem
        refine ⟨b0 ++ sep ++ p, s, ?_⟩
        show b0 ++ sep ++ pyJoin sep (b1 :: bs) = b0 ++ sep ++ p ++ b ++ s
        rw [hp]
        simp [strAppend_assoc]

theorem strContains_middle (a mid b needle : String) (h : strContains mid needle) :
    strContains (a ++ mid ++ b) needle := by
  obtain ⟨p, s, hp⟩ := h
  refine ⟨a ++ p, s ++ b, ?_⟩
  rw [hp]
  simp [strAppend_assoc]

theorem streamLoop_shape (sink : Nat → Option (String × String)) :
    ∀ (cs : List StreamChunk) (idx : Nat) (acc : List String),
      (∃ e, streamLoop sink cs idx acc = .error e) ∨
        (∃ j, streamLoop sink cs idx acc = .ok (acc ++ result_parts cs, j))
  | [], idx, acc => .inr ⟨idx, by simp [streamLoop, result_parts]⟩
  | c :: cs, idx, acc => by
      cases hs : sink idx with
      | some e => exact .inl ⟨e, by simp [streamLoop, hs]⟩
      | none =>
          by_cases h0 : c.text = ""
          · rcases streamLoop_shape sink cs (idx + 1) acc with ⟨e, he⟩ | ⟨j, hj⟩
            · exact .inl ⟨e, by simp [streamLoop, hs, h0, he]⟩
            · refine .inr ⟨j, ?_⟩
              simp [streamLoop, hs, h0, hj, result_parts]
          · cases hs2 : sink (idx + 1) with
            | some e => exact .inl ⟨e, by simp [streamLoop, hs, h0, hs2]⟩
            | none =>
                rcases streamLoop_shape sink cs (idx + 2) (acc ++ [c.text]) with
                  ⟨e, he⟩ | ⟨j, hj⟩
                · exact .inl ⟨e, by simp [streamLoop, hs, h0, hs2, he]⟩
                · refine .inr ⟨j, ?_⟩
                  simp [streamLoop, hs, h0, hs2, hj, result_parts]

theorem streamLoop_allOk :
    ∀ (cs : List StreamChunk) (idx : Nat) (acc : List String),
      ∃ j, streamLoop (fun _ => none) cs idx acc = .ok (acc ++ result_parts cs, j)
  | [], idx, acc => ⟨idx, by simp [streamLoop, result_parts]⟩
  | c :: cs, idx, acc => by
      by_cases h0 : c.text = ""
      · obtain ⟨j, hj⟩ := streamLoop_allOk cs (idx + 1) acc
        exact ⟨j, by simp [streamLoop, h0, hj, result_parts]⟩
      · obtain ⟨j, hj⟩ := streamLoop_allOk cs (idx + 2) (acc ++ [c.text])
        exact ⟨j, by simp [streamLoop, h0, hj, result_parts]⟩

/-! ## Claim theorems -/

/-- C1 counterexample: the claim "the Conversation Store after the call
equals the Conversation Store before the call" fails.  At the concrete
input (query `"q"`, empty store, an exception with message `"boom"` raised
during steps 1-4 and caught by the embedded except-clause), `run_dba_query`
appends the turn `("q", "Error: boom\n\nTraceback:\ntb")` to the store, so
the store after the call is nonempty. -/
theorem run_dba_query_caught_error_mutates_history_cex :
    (run_dba_query "q" ⟨false, none, none, []⟩
        (.ok (.raise "boom" "tb")) 5).2.conversation_history
      = [("q", "Error: boom\n\nTraceback:\ntb")]
    ∧ (AppState.mk false none none []).conversation_history = []
    ∧ ([("q", "Error: boom\n\nTraceback:\ntb")] : List (String × String)) ≠ [] := by
  refine ⟨rfl, rfl, by decide⟩

/-- C1 (amended): if an exception is raised during session setup or
streaming (steps 1-4), the embedded except-clause converts it to an
`"Error: "`-prefixed answer string; `run_dba_query` then returns `Ok` (a
success-flagged `QueryResult` carrying that text — no propagated fault) and
appends `(query, error text)` to the Conversation Store.  The store is left
unmodified only on the bridge-level error path (a Python failure outside
the embedded try, surfaced as `Err`). -/
theorem run_dba_query_caught_error_behavior (q m t : String) (st : AppState)
    (elapsed : Nat) :
    (run_dba_query q st (.ok (.raise m t)) elapsed).1 =
      .ok { success := true, message := "Query executed successfully",
            data := some ("Error: " ++ m ++ "\n\nTraceback:\n" ++ t),
            execution_time_ms := elapsed }
    ∧ (run_dba_query q st (.ok (.raise m t)) elapsed).2.conversation_history =
        st.conversation_history ++ [(q, "Error: " ++ m ++ "\n\nTraceback:\n" ++ t)]
    ∧ ∀ e, (run_dba_query q st (.pyerr e) elapsed).1 = .error ("Python error: " ++ e)
        ∧ (run_dba_query q st (.pyerr e) elapsed).2 = st :=
  ⟨rfl, rfl, fun _ => ⟨rfl, rfl⟩⟩

/-- C2 counterexample: the claim "the answer returned is the same as it
would be with a fully working sink" fails.  For the one-chunk stream
`["Hello"]`, a sink whose very first forensic-log `open` (the pre-stream
write, which sits inside the orchestrator's try-block) fails is caught by
the except-clause and the answer becomes the `"Error: "` text instead of
`"Hello"`. -/
theorem sink_failure_changes_answer_cex :
    run_query_sink (fun n => if n = 0 then some ("disk full", "tb") else none)
        [⟨"Hello", none⟩] = "Error: disk full\n\nTraceback:\ntb"
    ∧ run_query_sink (fun _ => none) [⟨"Hello", none⟩] = "Hello"
    ∧ ("Error: disk full\n\nTraceback:\ntb" : String) ≠ "Hello" := by
  refine ⟨rfl, rfl, by decide⟩

/-- C2 (amended): no forensic-sink failure raises past `submit_query` — the
orchestrator always resolves to a string: with a fully working sink the
answer is the clean aggregate, and under any sink behaviour the answer is
either the clean aggregate or an `"Error: "`-prefixed text produced by the
except-clause (because the pre-stream, per-chunk and post-stream log writes
sit inside the try-block, a sink failure there replaces the answer).
Separately, the Rust result-preview logging byte-slices the answer at fixed
offsets and would panic when the offset is not a character boundary (a
content-dependent failure, e.g. a 201-byte answer of `'a'` followed by 100
two-byte characters), while short answers are sliced safely. -/
theorem forensic_sink_behavior :
    (∀ cs, run_query_sink (fun _ => none) cs = aggregate cs)
    ∧ (∀ sink cs, run_query_sink sink cs = aggregate cs
        ∨ ∃ m t, run_query_sink sink cs = "Error: " ++ m ++ "\n\nTraceback:\n" ++ t)
    ∧ rust_preview_faults ⟨'a' :: List.replicate 100 'é'⟩ = true
    ∧ rust_preview_faults "ok" = false := by
  refine ⟨?_, ?_, by decide, rfl⟩
  · intro cs
    obtain ⟨j, hj⟩ := streamLoop_allOk cs 1 []
    simp [run_query_sink, hj, aggregate]
  · intro sink cs
    cases hs0 : sink 0 with
    | some e => exact .inr ⟨e.1, e.2, by simp [run_query_sink, hs0]⟩
    | none =>
        rcases streamLoop_shape sink cs 1 [] with ⟨e, he⟩ | ⟨j, hj⟩
        · exact .inr ⟨e.1, e.2, by simp [run_query_sink, hs0, he]⟩
        · cases hsj : sink j with
          | some e => exact .inr ⟨e.1, e.2, by simp [run_query_sink, hs0, hj, hsj]⟩
          | none =>
              exact .inl (by simp [run_query_sink, hs0, hj, hsj, aggregate])

/-- C3 counterexample: the claim quantifies over every finite stream, but
for the stream consisting of one chunk with the empty text fragment the
aggregated answer is the sentinel `"No response from agent"`, not the
concatenation `""` of the fragments. -/
theorem aggregate_all_empty_cex :
    aggregate [⟨"", none⟩] = "No response from agent"
    ∧ joinParts (([⟨"", none⟩] : List StreamChunk).map (fun c => c.text)) = ""
    ∧ ("No response from agent" : String) ≠ "" := by
  refine ⟨rfl, rfl, by decide⟩

/-- C3 (amended): for every finite stream of chunks that delivers at least
one nonempty text fragment, the aggregated final answer equals the
concatenation of the chunks' text fragments in exactly their arrival order
(no fragment dropped, reordered or deduplicated; empty fragments contribute
nothing).  (Streams with no nonempty fragment fall to the sentinel instead,
see C4.) -/
theorem aggregate_concat_of_nonempty (cs : List StreamChunk)
    (h : ∃ c ∈ cs, c.text ≠ "") :
    aggregate cs = joinParts (cs.map (fun c => c.text)) := by
  unfold aggregate
  rw [if_neg (result_parts_ne_nil h), joinParts_result_parts]

/-- C3 witness: the spec's concrete stream `["Hello, ", "world", ""]`
aggregates to `"Hello, world"`. -/
theorem aggregate_concat_witness :
    aggregate [⟨"Hello, ", none⟩, ⟨"world", none⟩, ⟨"", none⟩] = "Hello, world" := by
  have h := aggregate_concat_of_nonempty
      [⟨"Hello, ", none⟩, ⟨"world", none⟩, ⟨"", none⟩]
      ⟨⟨"Hello, ", none⟩, List.mem_cons_self _ _, by decide⟩
  rw [h]
  rfl

/-- C4: for every stream that delivers zero (nonempty) text fragments —
including the empty stream — the final answer is exactly the sentinel
`"No response from agent"`. -/
theorem aggregate_sentinel_of_no_text (cs : List StreamChunk)
    (h : ∀ c ∈ cs, c.text = "") : aggregate cs = "No response from agent" := by
  unfold aggregate
  rw [if_pos (result_parts_eq_nil h)]

/-- C4 witness: the empty stream yields the sentinel. -/
theorem aggregate_sentinel_witness : aggregate [] = "No response from agent" :=
  aggregate_sentinel_of_no_text [] (fun c hc => absurd hc (List.not_mem_nil c))

/-- C5: with an empty conversation history the assembled prompt equals the
raw query verbatim — `history.strip()` is falsy, so the template branch is
not taken and no wrapping is applied by the assembler. -/
theorem full_prompt_empty_history (q : String) : full_prompt [] q = q := rfl

/-- C6: for every query and nonempty history, the assembled prompt is
exactly the `"Previous conversation:"` template around `history_str` — so
the new query appears after the history block — and every turn's
`"User: <q>\nAssistant: <r>\n"` block (joined into `history_str` by the
`"\n---\n"` delimiter in insertion order) occurs contiguously inside the
prompt, so every turn's query and response text is contained in it. -/
theorem full_prompt_nonempty_history (h : List (String × String)) (q : String)
    (hne : h ≠ []) :
    full_prompt h q =
      "Previous conversation:\n" ++ history_str h ++ "\n\n---\nCurrent question: " ++ q
        ++ "\n\nPlease answer based on the context from our previous conversation."
    ∧ ∀ t ∈ h, strContains (full_prompt h q) (turnBlock t) := by
  obtain ⟨t0, ts, rfl⟩ : ∃ t0 ts, h = t0 :: ts := by
    cases h with
    | nil => exact absurd rfl hne
    | cons a l => exact ⟨a, l, rfl⟩
  have hcond := pyStrip_history_str_cons t0 ts
  have heq : full_prompt (t0 :: ts) q =
      "Previous conversation:\n" ++ history_str (t0 :: ts) ++ "\n\n---\nCurrent question: "
        ++ q ++ "\n\nPlease answer based on the context from our previous conversation." := by
    unfold full_prompt
    rw [if_neg hcond]
  refine ⟨heq, ?_⟩
  intro t ht
  rw [heq]
  have hassoc :
      "Previous conversation:\n" ++ history_str (t0 :: ts) ++ "\n\n---\nCurrent question: "
        ++ q ++ "\n\nPlease answer based on the context from our previous conversation."
      = "Previous conversation:\n" ++ history_str (t0 :: ts) ++
          ("\n\n---\nCurrent question: " ++ q
            ++ "\n\nPlease answer based on the context from our previous conversation.") := by
    simp [strAppend_assoc]
  rw [hassoc]
  apply strContains_middle
  exact pyJoin_contains "\n---\n" ((t0 :: ts).map turnBlock) (turnBlock t)
    (List.mem_map_of_mem turnBlock ht)

/-- C6 witness: concrete instance with the one-turn history
`[("a", "b")]` and query `"c"`. -/
theorem full_prompt_nonempty_history_witness :
    full_prompt [("a", "b")] "c" =
      "Previous conversation:\n" ++ history_str [("a", "b")] ++ "\n\n---\nCurrent question: "
        ++ "c" ++ "\n\nPlease answer based on the context from our previous conversation." :=
  (full_prompt_nonempty_history [("a", "b")] "c" (by decide)).1

/-- C7 counterexample: the claim "no reader of the connection status ever
observes an interleaved combination of the three fields" fails.  The three
fields are guarded by three separate mutexes and `connect_database` updates
them one at a time, so a `get_connection_status` that runs after the first
update (the `take 1` interleaving point) observes
`(connected = true, server = "oldS", database = "oldD")` — a combination
equal to neither the pre-call status nor the post-call status. -/
theorem status_interleaving_cex :
    get_connection_status
        (stateAfter ⟨false, some "oldS", some "oldD", []⟩
          ((connectSteps "newS" "newD").take 1))
      = ⟨true, some "oldS", some "oldD"⟩
    ∧ ConnectionStatus.mk true (some "oldS") (some "oldD")
        ≠ get_connection_status ⟨false, some "oldS", some "oldD", []⟩
    ∧ ConnectionStatus.mk true (some "oldS") (some "oldD")
        ≠ get_connection_status
            (stateAfter ⟨false, some "oldS", some "oldD", []⟩
              (connectSteps "newS" "newD")) := by
  refine ⟨rfl, by decide, by decide⟩

/-- C7 (amended): `connect_database` updates the three fields through three
separately-locked writes.  A completed call leaves the consistent triple
`(true, server, database)`, returns the confirmation string, and does not
touch the history; but the triple is not updated atomically as a unit — a
status read interleaved between the per-field writes can observe a
partially updated combination, equal to neither the pre-state's nor the
post-state's status. -/
theorem connect_database_updates (info : ConnectionInfo) (st : AppState) :
    get_connection_status (connect_database info st).2
      = ⟨true, some info.server, some info.database⟩
    ∧ (connect_database info st).1 = "Connected to " ++ info.server ++ "." ++ info.database
    ∧ (connect_database info st).2.conversation_history = st.conversation_history
    ∧ ∃ (st0 : AppState) (k : Nat),
        get_connection_status
            (stateAfter st0 ((connectSteps info.server info.database).take k))
          ≠ get_connection_status st0
        ∧ get_connection_status
            (stateAfter st0 ((connectSteps info.server info.database).take k))
          ≠ get_connection_status (stateAfter st0 (connectSteps info.server info.database)) := by
  refine ⟨rfl, rfl, rfl, ⟨false, none, none, []⟩, 1, ?_, ?_⟩
  · simp [stateAfter, connectSteps, get_connection_status]
  · simp [stateAfter, connectSteps, get_connection_status]

/-- C8: after `clear_conversation` the Conversation Store is the empty
sequence (length 0 for any following read), the confirmation string is
returned, and every other component of the shared state — connected flag,
server name, database name, and hence the whole connection status — is
unchanged. -/
theorem clear_conversation_spec (st : AppState) :
    (clear_conversation st).1 = "Conversation cleared"
    ∧ (clear_conversation st).2.conversation_history = []
    ∧ (clear_conversation st).2.conversation_history.length = 0
    ∧ (clear_conversation st).2.is_connected = st.is_connected
    ∧ (clear_conversation st).2.server_name = st.server_name
    ∧ (clear_conversation st).2.database_name = st.database_name
    ∧ get_connection_status (clear_conversation st).2 = get_connection_status st :=
  ⟨rfl, rfl, rfl, rfl, rfl, rfl, rfl⟩

/-- C9: for every environment, each absent configuration value falls back
to its documented default — server `"localhost"`, database `"master"`,
empty username and password, TLS-trust `"true"`, read-only `"false"` — and
with everything absent the whole `mcp_env` dictionary consists of exactly
those defaults. -/
theorem mcp_env_defaults (env : String → Option String) :
    (env "SERVER_NAME" = none → pyGetenv env "SERVER_NAME" "localhost" = "localhost")
    ∧ (env "DATABASE_NAME" = none → pyGetenv env "DATABASE_NAME" "master" = "master")
    ∧ (env "SQL_USERNAME" = none → pyGetenv env "SQL_USERNAME" "" = "")
    ∧ (env "SQL_PASSWORD" = none → pyGetenv env "SQL_PASSWORD" "" = "")
    ∧ (env "TRUST_SERVER_CERTIFICATE" = none →
        pyGetenv env "TRUST_SERVER_CERTIFICATE" "true" = "true")
    ∧ (env "READONLY" = none → pyGetenv env "READONLY" "false" = "false")
    ∧ mcp_env (fun _ => none) =
        [("SERVER_NAME", "localhost"), ("DATABASE_NAME", "master"), ("SQL_USERNAME", ""),
         ("SQL_PASSWORD", ""), ("TRUST_SERVER_CERTIFICATE", "true"),
         ("READONLY", "false")] := by
  refine ⟨?_, ?_, ?_, ?_, ?_, ?_, rfl⟩
  all_goals intro h
  all_goals simp [pyGetenv, h]

/-- C9 witness: the fully absent environment takes every default. -/
theorem mcp_env_defaults_witness :
    pyGetenv (fun _ => none) "SERVER_NAME" "localhost" = "localhost"
    ∧ pyGetenv (fun _ => none) "DATABASE_NAME" "master" = "master"
    ∧ pyGetenv (fun _ => none) "SQL_USERNAME" "" = ""
    ∧ pyGetenv (fun _ => none) "SQL_PASSWORD" "" = ""
    ∧ pyGetenv (fun _ => none) "TRUST_SERVER_CERTIFICATE" "true" = "true"
    ∧ pyGetenv (fun _ => none) "READONLY" "false" = "false" := by
  have h := mcp_env_defaults (fun _ => none)
  exact ⟨h.1 rfl, h.2.1 rfl, h.2.2.1 rfl, h.2.2.2.1 rfl, h.2.2.2.2.1 rfl,
    h.2.2.2.2.2.1 rfl⟩

/-- C10: whenever the bridge call returns a string (the script ran to
completion, so `run_dba_query` does not return `Err`), the returned
`QueryResult` has `success = true` and
`message = "Query executed successfully"` — including when the returned
text is the `"Error: "`-prefixed failure produced by the caught
except-clause (second conjunct): the success flag never reflects whether
the agent call actually succeeded. -/
theorem run_dba_query_success_flag (q : String) (st : AppState) (o : StreamOutcome)
    (elapsed : Nat) :
    (run_dba_query q st (.ok o) elapsed).1 =
      .ok { success := true, message := "Query executed successfully",
            data := some (run_query o), execution_time_ms := elapsed }
    ∧ ∀ m t, run_query (.raise m t) = "Error: " ++ m ++ "\n\nTraceback:\n" ++ t :=
  ⟨rfl, fun _ _ => rfl⟩
